import Mathlib

/-!
Shallow embedding of the session-lifecycle, request-dispatch and
streaming-event-normalization core of the `mcp-langchain` repository.

Conventions used throughout:
* Python `Optional[str]` values become `Option String`; Python truthiness of
  such a value (`None` and `""` are falsy) is `pyTruthy`.
* A tools configuration dict `{"enabled_tools": {server: [{"name": n, ...}]}}`
  is collapsed to its `enabled_tools` mapping, modelled as an association list
  from provider (server) name to the list of enabled tool names
  (`ToolsFilter`); the code only ever reads the `enabled_tools` key, and a
  falsy (`{}`/missing) mapping is the empty list.
* Session dicts keep the keys the embedded functions read or write.
-/

/-- Python truthiness of an optional string (`None` and `""` are falsy). -/
def pyTruthy : Option String → Bool
  | none => false
  | some s => s ≠ ""

/-- An `enabled_tools` mapping: provider (tool-server) name to enabled tool
names.  The empty list models a falsy (empty or absent) mapping. -/
abbrev ToolsFilter := List (String × List String)

/-- The executor variant bound to a session
(`raw_agent_executor` in the source). -/
inductive ExecutorKind
  | jsonAgent
  | reactAgent
  | openaiToolsAgent
  | simpleChain
deriving DecidableEq

/-- The per-session dict stored in `LangchainAgentService.sessions`, restricted
to the keys the embedded functions read or write.  `memorySaver` models the
`ChatMessageHistory` object (its list of messages) and `chatMessagesForLog`
the display/log list. -/
structure Session where
  llmConfigIdUsed : Option String
  toolsConfigUsed : ToolsFilter
  agentModeUsed : Option String
  agentDataSourceUsed : Option String
  memorySaver : List String
  chatMessagesForLog : List String
  agentExecutor : Option ExecutorKind
deriving DecidableEq

/-- `needs_session_recreation` from `mcp_web_app/utils/session.py` (lines
4-12): each of the three identity fields is compared only when the requested
override is truthy; the tools config is compared unconditionally. -/
def needs_session_recreation (session : Option Session) (llm_config_id : Option String)
    (tools_config : ToolsFilter) (agent_mode : Option String)
    (agent_data_source : Option String) : Bool :=
  match session with
  | none => true
  | some s =>
    (pyTruthy llm_config_id && decide (s.llmConfigIdUsed ≠ llm_config_id)) ||
    decide (tools_config ≠ s.toolsConfigUsed) ||
    (pyTruthy agent_mode && decide (s.agentModeUsed ≠ agent_mode)) ||
    (pyTruthy agent_data_source && decide (s.agentDataSourceUsed ≠ agent_data_source))

/-- `create_new_session_dict` (both `utils/session.py` and
`services/agent/session_manager.py`): fresh session record with empty history
and no executor. -/
def create_new_session_dict (llm_config_id : Option String) (tools_config : ToolsFilter)
    (agent_mode : Option String) (agent_data_source : Option String) : Session :=
  { llmConfigIdUsed := llm_config_id
    toolsConfigUsed := tools_config
    agentModeUsed := agent_mode
    agentDataSourceUsed := agent_data_source
    memorySaver := []
    chatMessagesForLog := []
    agentExecutor := none }

namespace SessionManager

/-- `needs_session_recreation` from `services/agent/session_manager.py` (lines
17-64): the stored values are compared against the requested ones directly,
with no truthiness guard on the overrides. -/
def needs_session_recreation (session : Option Session) (llm_config_id : Option String)
    (tools_config : ToolsFilter) (agent_mode : Option String)
    (agent_data_source : Option String) : Bool :=
  match session with
  | none => true
  | some s =>
    if s.llmConfigIdUsed ≠ llm_config_id ∨ s.agentModeUsed ≠ agent_mode then true
    else if (s.agentDataSourceUsed = none ∧ agent_data_source ≠ none) ∨
            (s.agentDataSourceUsed ≠ none ∧ agent_data_source = none) ∨
            s.agentDataSourceUsed ≠ agent_data_source then true
    else if s.toolsConfigUsed ≠ tools_config then true
    else false

end SessionManager

/-- The effective tool configuration chosen in the default (tool-using) branch
of `LangchainAgentService._get_or_create_session_components` (lines 655-663):
the session tools config if truthy, else the global one if truthy, else none.
-/
def effectiveToolsConfig (tools_config : ToolsFilter)
    (globally_active_tools : ToolsFilter) : Option ToolsFilter :=
  if tools_config ≠ [] then some tools_config
  else if globally_active_tools ≠ [] then some globally_active_tools
  else none

/-- Modelled from the spec (section 4.3 `resolve`): the intersection of a
per-request filter with the global filter, written from the claim's words for
comparison with `effectiveToolsConfig` — an unset global filter passes the
request through; otherwise providers absent from the global side are dropped
and explicit name sets are intersected. -/
def specEffectiveFilter (request : ToolsFilter) (globalFilter : Option ToolsFilter) :
    ToolsFilter :=
  match globalFilter with
  | none => request
  | some g =>
    request.filterMap fun pt =>
      match g.lookup pt.1 with
      | none => none
      | some gts => some (pt.1, pt.2.filter (fun t => t ∈ gts))

/-- A tool offered by the connected MCP client (only its name matters to the
filtering logic). -/
structure MCPTool where
  name : String
deriving DecidableEq

namespace MCPServerToolFactory

/-- `MCPServerToolFactory.__init__` (utils/mcp_tool_scripthost.py lines 12-25):
`self.enabled_tools_list = enabled_tools_list if enabled_tools_list else []`. -/
def initEnabledToolsList (enabled_tools_list : Option (List String)) : List String :=
  match enabled_tools_list with
  | none => []
  | some l => if l = [] then [] else l

/-- `MCPServerToolFactory.create_tools` (lines 27-71), given the list the
client's `get_tools()` returned: with an empty enabled list all client tools
are returned; otherwise, for each enabled name offered by the client, the
first client tool of that name is appended, and unknown names are skipped. -/
def create_tools (client_tools : List MCPTool) (enabled_tools_list : List String) :
    List MCPTool :=
  if enabled_tools_list = [] then client_tools
  else
    enabled_tools_list.filterMap fun n =>
      if client_tools.any (fun t => t.name = n) then
        client_tools.find? (fun t => t.name = n)
      else none

end MCPServerToolFactory

/-- A queued agent request (the tuple put on `request_queue`). -/
structure AgentRequest where
  sessionId : Option String
  question : String
  toolsConfig : ToolsFilter
  llmConfigId : Option String
  agentMode : Option String
  agentDataSource : Option String
deriving DecidableEq

/-- Outcome of a submit call: a synchronously raised `RuntimeError`, a
returned `Future` already resolved with a `RuntimeError`, or a pending
`Future` after the request was queued. -/
inductive SubmitOutcome
  | raised (msg : String)
  | futureFailed (msg : String)
  | queuedPending
deriving DecidableEq

/-- Dispatcher-side state observed by the submit entry points: the
`is_running` flag, whether `dispatcher_thread` is set, whether it is alive,
and the request queue. -/
structure DispatcherState where
  isRunning : Bool
  threadPresent : Bool
  threadAlive : Bool
  queue : List AgentRequest
deriving DecidableEq

namespace RequestDispatcher

/-- `RequestDispatcher.submit_request` (services/agent/dispatcher.py lines
73-112): raises `RuntimeError` before creating a future or queueing when the
dispatcher is not running, the thread is absent, or the thread is dead. -/
def submit_request (st : DispatcherState) (r : AgentRequest) :
    SubmitOutcome × DispatcherState :=
  if !st.isRunning || !st.threadPresent || !st.threadAlive then
    (.raised "Dispatcher thread is not running. Cannot process request.", st)
  else
    (.queuedPending, { st with queue := st.queue ++ [r] })

end RequestDispatcher

namespace LangchainAgentService

/-- `LangchainAgentService.submit_request` (langchain_agent_service.py lines
969-985): when the dispatcher thread is absent or dead the returned future is
resolved with a `RuntimeError` and nothing is queued; otherwise a missing
session id is replaced by a generated one (`freshId`) and the request is
queued. -/
def submit_request (st : DispatcherState) (r : AgentRequest) (freshId : String) :
    SubmitOutcome × DispatcherState :=
  if !st.threadPresent || !st.threadAlive then
    (.futureFailed "Dispatcher thread not running.", st)
  else
    let r2 := match r.sessionId with
      | none => { r with sessionId := some ("request-" ++ freshId) }
      | some _ => r
    (.queuedPending, { st with queue := st.queue ++ [r2] })

end LangchainAgentService

/-- Claim C3 counterexample: with an empty request filter and global filter
`{A: [t1]}`, the code uses the whole global filter as-is (`{A: [t1]}`), while
the claimed intersection semantics demands the empty result; and a provider
(`B`) absent from the global filter is kept, not dropped. -/
theorem c3_effective_filter_counterexample :
    effectiveToolsConfig [] [("A", ["t1"])] = some [("A", ["t1"])] ∧
    specEffectiveFilter [] (some [("A", ["t1"])]) = [] ∧
    effectiveToolsConfig [("B", ["u1"])] [("A", ["t1"])] = some [("B", ["u1"])] ∧
    specEffectiveFilter [("B", ["u1"])] (some [("A", ["t1"])]) = [] := by
  decide

/-- Claim C3 (amended): the effective tool configuration is chosen by
precedence, not intersection: a truthy request filter is used as-is (hence the
claim's first two cases hold, as instantiated in the last two conjuncts), an
empty request filter falls back to the whole global filter when that is
truthy, and only when both are empty is no tool configuration used. -/
theorem c3_effective_filter_precedence :
    (∀ tc g : ToolsFilter, tc ≠ [] → effectiveToolsConfig tc g = some tc) ∧
    (∀ g : ToolsFilter, g ≠ [] → effectiveToolsConfig [] g = some g) ∧
    effectiveToolsConfig [] [] = none ∧
    effectiveToolsConfig [("A", ["t1"])] [("A", ["t1", "t2"])] = some [("A", ["t1"])] ∧
    effectiveToolsConfig [("A", ["t1"])] [] = some [("A", ["t1"])] := by
  refine ⟨?_, ?_, by decide, by decide, by decide⟩
  · intro tc g h
    simp [effectiveToolsConfig, h]
  · intro g h
    simp [effectiveToolsConfig, h]

/-- Claim C3 witness: the general precedence clauses of
`c3_effective_filter_precedence` applied at concrete filters. -/
theorem c3_effective_filter_precedence_witness :
    effectiveToolsConfig [("A", ["t1"])] [("A", ["t1", "t2"])] = some [("A", ["t1"])] ∧
    effectiveToolsConfig [] [("B", ["u1"])] = some [("B", ["u1"])] :=
  ⟨c3_effective_filter_precedence.1 [("A", ["t1"])] [("A", ["t1", "t2"])] (by decide),
   c3_effective_filter_precedence.2.1 [("B", ["u1"])] (by decide)⟩

/-- Claim C4 counterexample: the `session_manager.py` implementation of
`needs_session_recreation` returns `true` (REBUILD) for a stored session whose
`llm_config_id_used`, `agent_mode_used` and `agent_data_source_used` are
non-None when all overrides are `None` and the tool filter is unchanged,
where the claim demands `False` (REUSE). -/
theorem c4_session_manager_none_counterexample :
    SessionManager.needs_session_recreation
      (some { llmConfigIdUsed := some "cfg-a"
              toolsConfigUsed := []
              agentModeUsed := some "react"
              agentDataSourceUsed := some "data.json"
              memorySaver := []
              chatMessagesForLog := []
              agentExecutor := none })
      none [] none none = true := by
  decide

/-- Claim C4 (amended): only the `utils/session.py` implementation treats an
absent (`None`) override as "keep whatever this session already has" — it
returns `false` whenever all three overrides are `None` and the tool filter is
unchanged; the `services/agent/session_manager.py` implementation instead
compares directly, so with a stored non-None `llm_config_id_used` and a `None`
override it always returns `true` (REBUILD). -/
theorem c4_none_override_semantics :
    (∀ (s : Session) (tc : ToolsFilter), tc = s.toolsConfigUsed →
      needs_session_recreation (some s) none tc none none = false) ∧
    (∀ s : Session, s.llmConfigIdUsed ≠ none →
      SessionManager.needs_session_recreation (some s) none s.toolsConfigUsed none none
        = true) := by
  constructor
  · intro s tc h
    subst h
    simp [needs_session_recreation, pyTruthy]
  · intro s h
    simp [SessionManager.needs_session_recreation, h]

/-- Claim C4 witness: `c4_none_override_semantics` applied at concrete
sessions. -/
theorem c4_none_override_semantics_witness :
    needs_session_recreation
      (some { llmConfigIdUsed := some "cfg-a"
              toolsConfigUsed := [("A", ["t1"])]
              agentModeUsed := some "react"
              agentDataSourceUsed := some "data.json"
              memorySaver := ["hello"]
              chatMessagesForLog := ["hello"]
              agentExecutor := none })
      none [("A", ["t1"])] none none = false ∧
    SessionManager.needs_session_recreation
      (some { llmConfigIdUsed := some "cfg-a"
              toolsConfigUsed := [("A", ["t1"])]
              agentModeUsed := some "react"
              agentDataSourceUsed := some "data.json"
              memorySaver := ["hello"]
              chatMessagesForLog := ["hello"]
              agentExecutor := none })
      none [("A", ["t1"])] none none = true :=
  ⟨c4_none_override_semantics.1 _ _ rfl,
   c4_none_override_semantics.2 _ (by decide)⟩

/-- Claim C5: both implementations of `needs_session_recreation` are
idempotent reconcilers — when the stored `llm_config_id_used`,
`tools_config_used`, `agent_mode_used` and `agent_data_source_used` are
requested again unchanged, neither triggers a rebuild. -/
theorem c5_reconciler_idempotent (s : Session) :
    needs_session_recreation (some s) s.llmConfigIdUsed s.toolsConfigUsed
      s.agentModeUsed s.agentDataSourceUsed = false ∧
    SessionManager.needs_session_recreation (some s) s.llmConfigIdUsed
      s.toolsConfigUsed s.agentModeUsed s.agentDataSourceUsed = false := by
  constructor
  · simp [needs_session_recreation]
  · simp [SessionManager.needs_session_recreation]

/-- Claim C9: whenever the dispatcher thread is absent or not alive, both
submit entry points fail immediately — `RequestDispatcher.submit_request`
raises a `RuntimeError` and `LangchainAgentService.submit_request` returns a
future already resolved with a `RuntimeError` — and in both cases the state
(in particular the request queue) is left unchanged, so the request is never
queued. -/
theorem c9_submit_rejected_when_not_running
    (st : DispatcherState) (r : AgentRequest) (freshId : String)
    (h : st.threadPresent = false ∨ st.threadAlive = false) :
    RequestDispatcher.submit_request st r =
      (.raised "Dispatcher thread is not running. Cannot process request.", st) ∧
    LangchainAgentService.submit_request st r freshId =
      (.futureFailed "Dispatcher thread not running.", st) := by
  rcases h with h | h <;>
    simp [RequestDispatcher.submit_request, LangchainAgentService.submit_request, h]

/-- Claim C9 witness: `c9_submit_rejected_when_not_running` at a concrete
stopped dispatcher state. -/
theorem c9_submit_rejected_when_not_running_witness :
    RequestDispatcher.submit_request
      { isRunning := false, threadPresent := true, threadAlive := false, queue := [] }
      { sessionId := some "s1", question := "2+2", toolsConfig := [],
        llmConfigId := none, agentMode := none, agentDataSource := none } =
      (.raised "Dispatcher thread is not running. Cannot process request.",
       { isRunning := false, threadPresent := true, threadAlive := false, queue := [] }) :=
  (c9_submit_rejected_when_not_running
    { isRunning := false, threadPresent := true, threadAlive := false, queue := [] }
    { sessionId := some "s1", question := "2+2", toolsConfig := [],
      llmConfigId := none, agentMode := none, agentDataSource := none }
    "id" (Or.inr rfl)).1

/-- Helper: with a nodup name list, the first tool found by name is the tool
itself. -/
theorem find_name_eq_of_nodup {ct : List MCPTool} {t : MCPTool}
    (hnd : (ct.map MCPTool.name).Nodup) (ht : t ∈ ct) :
    ct.find? (fun x => x.name = t.name) = some t := by
  have hsome : (ct.find? (fun x => x.name = t.name)).isSome := by
    rw [List.find?_isSome]
    exact ⟨t, ht, by simp⟩
  obtain ⟨u, hu⟩ := Option.isSome_iff_exists.mp hsome
  have humem : u ∈ ct := List.mem_of_find?_eq_some hu
  have huname : u.name = t.name := by
    have := List.find?_some hu
    simpa using this
  have : u = t := by
    have hinj := List.inj_on_of_nodup_map hnd
    exact hinj humem ht huname
  rw [hu, this]

/-- Claim C10: `MCPServerToolFactory` with a `None` or empty
`enabled_tools_list` returns every tool offered by the client, and with a
non-empty list (and distinct client tool names) it returns exactly the offered
tools whose names appear in the list, silently skipping requested names the
client does not offer. -/
theorem c10_tool_factory_filter :
    (∀ (o : Option (List String)) (ct : List MCPTool), (o = none ∨ o = some []) →
      MCPServerToolFactory.create_tools ct (MCPServerToolFactory.initEnabledToolsList o)
        = ct) ∧
    (∀ (ct : List MCPTool) (enabled : List String), enabled ≠ [] →
      (ct.map MCPTool.name).Nodup →
      ∀ t : MCPTool,
        t ∈ MCPServerToolFactory.create_tools ct enabled ↔
          t ∈ ct ∧ t.name ∈ enabled) := by
  constructor
  · rintro o ct (rfl | rfl) <;>
      simp [MCPServerToolFactory.initEnabledToolsList, MCPServerToolFactory.create_tools]
  · intro ct enabled hne hnd t
    unfold MCPServerToolFactory.create_tools
    rw [if_neg hne]
    constructor
    · intro ht
      rw [List.mem_filterMap] at ht
      obtain ⟨n, hn, hf⟩ := ht
      by_cases hany : ct.any (fun x => x.name = n)
      · rw [if_pos hany] at hf
        have hpred : t.name = n := by
          have := List.find?_some hf
          simpa using this
        exact ⟨List.mem_of_find?_eq_some hf, hpred ▸ hn⟩
      · rw [if_neg hany] at hf
        exact absurd hf (by simp)
    · rintro ⟨ht, hn⟩
      rw [List.mem_filterMap]
      refine ⟨t.name, hn, ?_⟩
      have hany : ct.any (fun x => x.name = t.name) := by
        rw [List.any_eq_true]
        exact ⟨t, ht, by simp⟩
      rw [if_pos hany]
      exact find_name_eq_of_nodup hnd ht

/-- Claim C10 witness: `c10_tool_factory_filter` at a two-tool client with a
filter requesting one offered and one unknown tool. -/
theorem c10_tool_factory_filter_witness :
    MCPServerToolFactory.create_tools [⟨"add"⟩, ⟨"mul"⟩]
      (MCPServerToolFactory.initEnabledToolsList none) = [⟨"add"⟩, ⟨"mul"⟩] ∧
    (MCPTool.mk "mul" ∈
      MCPServerToolFactory.create_tools [⟨"add"⟩, ⟨"mul"⟩] ["mul", "missing"]) ∧
    ¬ (MCPTool.mk "add" ∈
      MCPServerToolFactory.create_tools [⟨"add"⟩, ⟨"mul"⟩] ["mul", "missing"]) :=
  ⟨c10_tool_factory_filter.1 none [⟨"add"⟩, ⟨"mul"⟩] (Or.inl rfl),
   (c10_tool_factory_filter.2 [⟨"add"⟩, ⟨"mul"⟩] ["mul", "missing"] (by decide)
      (by decide) ⟨"mul"⟩).mpr ⟨by decide, by decide⟩,
   fun hmem =>
     by simpa using
       ((c10_tool_factory_filter.2 [⟨"add"⟩, ⟨"mul"⟩] ["mul", "missing"] (by decide)
          (by decide) ⟨"add"⟩).mp hmem).2⟩

/-- Outcomes of the effectful steps taken while (re)building session
components: the two `_get_llm` calls (lines 427 and 493), document loading and
JSON-agent construction for `agent_mode == "json"` (lines 512-544), ReAct
agent construction in `agent_factory.create_react_agent_executor`, and MCP
client activation plus tool creation in the default branch (lines 665-718);
`createdToolNames` is what `MCPServerToolFactory.create_tools` returned there
(an MCP failure, absent server configs included, is `mcpOk = false`, which
leaves `agent_tools` empty). -/
structure BuildEnv where
  llm1Ok : Bool
  llm2Ok : Bool
  jsonLoadOk : Bool
  jsonAgentOk : Bool
  reactCreateOk : Bool
  mcpOk : Bool
  createdToolNames : List String
deriving DecidableEq

/-- The executor variant produced by the mode branches of
`LangchainAgentService._get_or_create_session_components` (lines 508-760),
given that both LLM lookups succeeded: `"json"` mode with a truthy data source
builds a JSON agent or nothing at all on load/creation failure (the `elif`
chain never reaches the plain-generation branch for this mode); `"react"` mode
always builds a ReAct agent; every other mode resolves the effective tools and
builds the OpenAI-tools agent, falling back to `SimpleChainExecutor` when no
tools are available. -/
def selectExecutor (env : BuildEnv) (tools_config : ToolsFilter)
    (globally_active_tools : ToolsFilter) (agent_mode : Option String)
    (agent_data_source : Option String) : Option ExecutorKind :=
  if agent_mode = some "json" ∧ pyTruthy agent_data_source then
    if env.jsonLoadOk ∧ env.jsonAgentOk then some .jsonAgent else none
  else if agent_mode = some "react" then
    some .reactAgent
  else
    let agentTools : List String :=
      match effectiveToolsConfig tools_config globally_active_tools with
      | none => []
      | some _ => if env.mcpOk then env.createdToolNames else []
    if agentTools = [] then some .simpleChain else some .openaiToolsAgent

/-- `LangchainAgentService._get_or_create_session_components` (lines 412-794),
restricted to the single session id being served: the rebuild decision uses
`utils/session.py`'s `needs_session_recreation`; a failed first LLM lookup
nulls the executor (preserving everything else of an existing session) or
creates a fresh empty record; otherwise an existing record is updated in place
(preserving `memory_saver` and `chat_messages_for_log`) or a fresh one is
created, and the executor selected by `selectExecutor` (or nothing, if the
second LLM lookup fails) is installed; without a rebuild the session is
returned untouched. -/
def getOrCreateSessionComponents (env : BuildEnv) (globally_active_tools : ToolsFilter)
    (session : Option Session) (tools_config : ToolsFilter)
    (llm_config_id : Option String) (agent_mode : Option String)
    (agent_data_source : Option String) : Session :=
  if needs_session_recreation session llm_config_id tools_config agent_mode
      agent_data_source then
    if env.llm1Ok = false then
      match session with
      | some s => { s with agentExecutor := none }
      | none => create_new_session_dict llm_config_id tools_config agent_mode
          agent_data_source
    else
      let base : Session :=
        match session with
        | some s =>
          { s with
            agentExecutor := none
            llmConfigIdUsed := llm_config_id
            toolsConfigUsed := tools_config
            agentModeUsed := agent_mode
            agentDataSourceUsed := agent_data_source }
        | none => create_new_session_dict llm_config_id tools_config agent_mode
            agent_data_source
      if env.llm2Ok = false then { base with agentExecutor := none }
      else { base with
        agentExecutor := selectExecutor env tools_config globally_active_tools
          agent_mode agent_data_source }
  else
    match session with
    | some s => s
    | none => create_new_session_dict llm_config_id tools_config agent_mode
        agent_data_source

/-- `create_agent_for_mode` (services/agent/agent_factory.py lines 165-217):
`"json"` mode with a truthy data source builds the JSON agent when the
document loads, `"react"` mode with tools builds the ReAct agent, and `None`
is returned whenever no raw executor was created — there is no
plain-generation fallback in this factory either. -/
def createAgentForMode (env : BuildEnv) (mode : String)
    (data_source : Option String) (tools : List String) : Option ExecutorKind :=
  if mode = "json" ∧ pyTruthy data_source then
    if env.jsonLoadOk then
      if env.jsonAgentOk then some .jsonAgent else none
    else none
  else if mode = "react" ∧ tools ≠ [] then
    if env.reactCreateOk then some .reactAgent else none
  else none

/-- Claim C6: rebuilding preserves the conversation-history objects of an
existing session — `memory_saver` and `chat_messages_for_log` are carried over
unchanged on every path through `_get_or_create_session_components`, so the
history length never decreases across a rebuild — and a build with no
pre-existing session starts with empty history. -/
theorem c6_history_monotonic (env : BuildEnv) (g : ToolsFilter)
    (session : Option Session) (tc : ToolsFilter) (lc am ads : Option String) :
    (∀ s : Session, session = some s →
      (getOrCreateSessionComponents env g session tc lc am ads).memorySaver
          = s.memorySaver ∧
      (getOrCreateSessionComponents env g session tc lc am ads).chatMessagesForLog
          = s.chatMessagesForLog ∧
      s.memorySaver.length ≤
        (getOrCreateSessionComponents env g session tc lc am ads).memorySaver.length) ∧
    (session = none →
      (getOrCreateSessionComponents env g session tc lc am ads).memorySaver = [] ∧
      (getOrCreateSessionComponents env g session tc lc am ads).chatMessagesForLog
        = []) := by
  constructor
  · rintro s rfl
    cases hn : needs_session_recreation (some s) lc tc am ads <;>
      cases h1 : env.llm1Ok <;> cases h2 : env.llm2Ok <;>
        simp [getOrCreateSessionComponents, hn, h1, h2]
  · rintro rfl
    cases h1 : env.llm1Ok <;> cases h2 : env.llm2Ok <;>
      simp [getOrCreateSessionComponents, needs_session_recreation,
        create_new_session_dict, h1, h2]

/-- Claim C6 witness: `c6_history_monotonic` at a concrete rebuilt session. -/
theorem c6_history_monotonic_witness :
    (getOrCreateSessionComponents
      { llm1Ok := true, llm2Ok := true, jsonLoadOk := true, jsonAgentOk := true,
        reactCreateOk := true, mcpOk := true, createdToolNames := [] }
      []
      (some { llmConfigIdUsed := some "cfg-a", toolsConfigUsed := [],
              agentModeUsed := none, agentDataSourceUsed := none,
              memorySaver := ["q1", "a1"], chatMessagesForLog := ["q1", "a1"],
              agentExecutor := some .simpleChain })
      [] (some "cfg-b") none none).memorySaver = ["q1", "a1"] :=
  ((c6_history_monotonic
      { llm1Ok := true, llm2Ok := true, jsonLoadOk := true, jsonAgentOk := true,
        reactCreateOk := true, mcpOk := true, createdToolNames := [] }
      []
      (some { llmConfigIdUsed := some "cfg-a", toolsConfigUsed := [],
              agentModeUsed := none, agentDataSourceUsed := none,
              memorySaver := ["q1", "a1"], chatMessagesForLog := ["q1", "a1"],
              agentExecutor := some .simpleChain })
      [] (some "cfg-b") none none).1 _ rfl).1

/-- Claim C7: contrary to the claim (and to the "Falling back." log messages
at lines 540/543), a `"json"`-mode request whose data source fails to load
leaves the session with no executor at all — the `if/elif/else` chain never
reaches the plain-generation branch for mode `"json"`, and
`create_agent_for_mode` likewise returns `None` — instead of falling back to
the plain-generation variant. -/
theorem c7_json_failure_no_executor :
    (getOrCreateSessionComponents
      { llm1Ok := true, llm2Ok := true, jsonLoadOk := false, jsonAgentOk := true,
        reactCreateOk := true, mcpOk := true, createdToolNames := [] }
      [] none [] none (some "json") (some "bad.yaml")).agentExecutor = none ∧
    createAgentForMode
      { llm1Ok := true, llm2Ok := true, jsonLoadOk := false, jsonAgentOk := true,
        reactCreateOk := true, mcpOk := true, createdToolNames := [] }
      "json" (some "bad.yaml") [] = none := by
  decide

/-- Python strings at character level, for the tool-input cleaning logic. -/
abbrev PyStr := List Char

/-- The whitespace characters removed by Python `str.strip()` (ASCII range). -/
def pyIsSpace (c : Char) : Bool :=
  c = ' ' ∨ c = '\t' ∨ c = '\n' ∨ c = '\r' ∨ c = '\x0b' ∨ c = '\x0c'

/-- Python `str.strip()`: remove leading and trailing whitespace. -/
def pyStrip (s : PyStr) : PyStr :=
  ((s.dropWhile pyIsSpace).reverse.dropWhile pyIsSpace).reverse

/-- The characters of the marker `"```json"`. -/
def fenceJson : PyStr := "```json".toList

/-- The characters of the code-fence marker. -/
def fence : PyStr := "```".toList

/-- The cleaning steps of `CustomReActParser.parse`
(services/agent/parser.py lines 39-49): strip, then drop one leading
`"```json"`, one leading fence and one trailing fence, re-stripping after
each removal. -/
def cleanToolInput (raw : PyStr) : PyStr :=
  let s0 := pyStrip raw
  let s1 := if fenceJson.isPrefixOf s0 then pyStrip (s0.drop 7) else s0
  let s2 := if fence.isPrefixOf s1 then pyStrip (s1.drop 3) else s1
  if fence.isSuffixOf s2 then pyStrip (s2.take (s2.length - 3)) else s2

/-- The JSON-shape test of lines 52-53: starts and ends with matching braces
or brackets. -/
def looksLikeJson (s : PyStr) : Bool :=
  (s.head? = some '{' ∧ s.getLast? = some '}') ∨
  (s.head? = some '[' ∧ s.getLast? = some ']')

/-- The tool input left on the `AgentAction` after `parse`: either a decoded
JSON document or the cleaned string. -/
inductive ToolInput (J : Type)
  | json (v : J)
  | str (s : PyStr)
deriving DecidableEq

/-- The string branch of `CustomReActParser.parse` (lines 37-63), with
`json.loads` abstracted as `jsonLoads` (`none` models `JSONDecodeError`): a
JSON-looking cleaned string is decoded if possible and kept as the cleaned
string on decode failure; anything else is kept as the cleaned string. -/
def parseToolInput {J : Type} (jsonLoads : PyStr → Option J) (raw : PyStr) :
    ToolInput J :=
  let cleaned := cleanToolInput raw
  if looksLikeJson cleaned then
    match jsonLoads cleaned with
    | some v => .json v
    | none => .str cleaned
  else .str cleaned

/-- Helper: `dropWhile` skips over a block of characters all satisfying the
predicate. -/
theorem dropWhile_append_all {p : Char → Bool} {w x : List Char}
    (hw : ∀ c ∈ w, p c = true) : (w ++ x).dropWhile p = x.dropWhile p := by
  induction w with
  | nil => rfl
  | cons a w ih =>
    rw [List.cons_append, List.dropWhile_cons, hw a (by simp)]
    exact ih fun c hc => hw c (by simp [hc])

/-- Helper: `dropWhile` is the identity when the head fails the predicate. -/
theorem dropWhile_eq_self_of_head {p : Char → Bool} {l : List Char}
    (h : ∀ c, l.head? = some c → p c = false) : l.dropWhile p = l := by
  cases l with
  | nil => rfl
  | cons a t =>
    rw [List.dropWhile_cons, h a rfl]
    rfl


/-- Helper: stripping whitespace around a block whose first and last
characters are not whitespace yields the block. -/
theorem pyStrip_wrapped {w1 w2 core : List Char}
    (h1 : ∀ c ∈ w1, pyIsSpace c = true) (h2 : ∀ c ∈ w2, pyIsSpace c = true)
    (hh : ∀ c, core.head? = some c → pyIsSpace c = false)
    (hl : ∀ c, core.getLast? = some c → pyIsSpace c = false) :
    pyStrip (w1 ++ core ++ w2) = core := by
  unfold pyStrip
  cases core with
  | nil =>
    have e : w1 ++ ([] : List Char) ++ w2 = w1 ++ w2 := by simp
    rw [e, dropWhile_append_all h1]
    have e2 : w2.dropWhile pyIsSpace = [] := by
      have h3 := dropWhile_append_all (x := ([] : List Char)) h2
      simpa using h3
    simp [e2]
  | cons a t =>
    rw [List.append_assoc, dropWhile_append_all h1,
      dropWhile_eq_self_of_head (l := (a :: t) ++ w2) (fun c hc => by
        rw [List.cons_append] at hc
        simp only [List.head?_cons, Option.some.injEq] at hc
        exact hc ▸ hh a rfl),
      List.reverse_append,
      dropWhile_append_all (fun c hc => h2 c (List.mem_reverse.mp hc)),
      dropWhile_eq_self_of_head (fun c hc => hl c (by rwa [List.head?_reverse] at hc)),
      List.reverse_reverse]

/-- Helper: a marker that avoids the junction character is a prefix of
`t ++ c :: v` only by being a prefix of `t`. -/
theorem prefix_of_prefix_junction {m t v : List Char} {c : Char}
    (hm : m <+: t ++ c :: v) (hc : c ∉ m) : m <+: t := by
  rcases le_or_lt m.length t.length with h | h
  · exact List.prefix_of_prefix_length_le hm (List.prefix_append t (c :: v)) h
  · exfalso
    obtain ⟨r, hr⟩ := hm
    have hd : m.drop t.length ++ r = c :: v := by
      have h3 := congrArg (List.drop t.length) hr
      rwa [List.drop_append_of_le_length h.le, List.drop_left] at h3
    have hne : m.drop t.length ≠ [] := by
      intro h0
      rw [List.drop_eq_nil_iff] at h0
      omega
    obtain ⟨a, tl, ha⟩ := List.exists_cons_of_ne_nil hne
    have hac : a = c := by
      rw [ha] at hd
      simp only [List.cons_append, List.cons.injEq] at hd
      exact hd.1
    exact hc (hac ▸ List.drop_subset t.length m (ha ▸ List.mem_cons_self a tl))

/-- Helper: appending text that starts with a newline never completes a
code-fence marker. -/
theorem fence_isPrefixOf_append (t v : List Char) :
    fence.isPrefixOf (t ++ '\n' :: v) = fence.isPrefixOf t := by
  rw [Bool.eq_iff_iff]
  simp only [List.isPrefixOf_iff_prefix]
  constructor
  · intro hp
    exact prefix_of_prefix_junction hp (by decide)
  · intro hp
    exact hp.trans (List.prefix_append t _)

/-- Helper: a plain fence followed by a newline never matches the longer
`"```json"` marker. -/
theorem fenceJson_not_prefixOf_plain (v : List Char) :
    fenceJson.isPrefixOf (fence ++ '\n' :: v) = false := by
  have h2 : ¬ fenceJson <+: fence ++ '\n' :: v := fun hp =>
    absurd (prefix_of_prefix_junction hp (by decide)) (by decide)
  rw [Bool.eq_false_iff]
  simp only [ne_eq, List.isPrefixOf_iff_prefix]
  exact h2

/-- Helper: text starting with the `"```json"` marker starts with a
non-space character. -/
theorem head_not_space_fenceJson (x : List Char) :
    ∀ c, (fenceJson ++ x).head? = some c → pyIsSpace c = false := by
  intro c hc
  have h2 : (fenceJson ++ x).head?.map pyIsSpace = some false := rfl
  rw [hc] at h2
  simpa using h2

/-- Helper: text starting with the fence marker starts with a non-space
character. -/
theorem head_not_space_fence (x : List Char) :
    ∀ c, (fence ++ x).head? = some c → pyIsSpace c = false := by
  intro c hc
  have h2 : (fence ++ x).head?.map pyIsSpace = some false := rfl
  rw [hc] at h2
  simpa using h2

/-- Helper: text ending in the fence marker ends with a non-space
character. -/
theorem getLast_not_space_fence (x : List Char) :
    ∀ c, (x ++ fence).getLast? = some c → pyIsSpace c = false := by
  intro c hc
  rw [List.getLast?_append] at hc
  have h1 : fence.getLast?.or x.getLast? = fence.getLast? := rfl
  rw [h1] at hc
  have h2 : fence.getLast?.map pyIsSpace = some false := by decide
  rw [hc] at h2
  simpa using h2

/-- Helper: a non-empty block with a non-space head keeps it under
appending. -/
theorem head_not_space_append_left {t : List Char} (x : List Char) (hne : t ≠ [])
    (hh : ∀ c, t.head? = some c → pyIsSpace c = false) :
    ∀ c, (t ++ x).head? = some c → pyIsSpace c = false := by
  intro c hc
  rw [List.head?_append] at hc
  cases ht : t.head? with
  | none => exact absurd (List.head?_eq_none_iff.mp ht) hne
  | some a =>
    rw [ht, Option.or_some] at hc
    simp only [Option.some.injEq] at hc
    exact hc ▸ hh a ht

/-- Helper: stripping the newline block between the opening marker and the
trailing fence. -/
theorem strip_nl_block {t : List Char} (hne : t ≠ [])
    (hh : ∀ c, t.head? = some c → pyIsSpace c = false) :
    pyStrip ('\n' :: (t ++ '\n' :: fence)) = t ++ '\n' :: fence := by
  rw [show ('\n' :: (t ++ '\n' :: fence) : List Char)
      = ['\n'] ++ (t ++ '\n' :: fence) ++ [] from by simp]
  exact pyStrip_wrapped (by decide) (by simp)
    (head_not_space_append_left _ hne hh)
    (fun c hc => getLast_not_space_fence (t ++ ['\n']) c (by
      rw [show (t ++ ['\n']) ++ fence = t ++ '\n' :: fence from by simp]
      exact hc))

/-- Helper: cleaning text wrapped in `"```json"` fences or plain fences with
surrounding whitespace recovers the wrapped text. -/
theorem cleanToolInput_fenced {w1 w2 t : PyStr}
    (h1 : ∀ c ∈ w1, pyIsSpace c = true) (h2 : ∀ c ∈ w2, pyIsSpace c = true)
    (hne : t ≠ [])
    (hh : ∀ c, t.head? = some c → pyIsSpace c = false)
    (hl : ∀ c, t.getLast? = some c → pyIsSpace c = false)
    (hp : fence.isPrefixOf t = false) :
    cleanToolInput (w1 ++ fenceJson ++ '\n' :: t ++ '\n' :: fence ++ w2) = t ∧
    cleanToolInput (w1 ++ fence ++ '\n' :: t ++ '\n' :: fence ++ w2) = t := by
  have hsufKey : fence.isSuffixOf (t ++ '\n' :: fence) = true := by
    rw [show (t ++ '\n' :: fence : PyStr) = (t ++ ['\n']) ++ fence from by simp]
    simp only [List.isSuffixOf_iff_suffix]
    exact List.suffix_append _ _
  have htake : (t ++ '\n' :: fence).take ((t ++ '\n' :: fence).length - 3)
      = t ++ ['\n'] := by
    rw [show (t ++ '\n' :: fence : PyStr) = (t ++ ['\n']) ++ fence from by simp,
      List.length_append, show fence.length = 3 from by decide,
      Nat.add_sub_cancel, List.take_left]
  have hstripFinal : pyStrip (t ++ ['\n']) = t := by
    rw [show t ++ ['\n'] = [] ++ t ++ ['\n'] from by simp]
    exact pyStrip_wrapped (by simp) (by decide) hh hl
  have hmid : pyStrip ('\n' :: (t ++ '\n' :: fence)) = t ++ '\n' :: fence :=
    strip_nl_block hne hh
  have hnp1 : ¬ (fence.isPrefixOf (t ++ '\n' :: fence) = true) := by
    rw [fence_isPrefixOf_append, hp]
    simp
  constructor
  · rw [show w1 ++ fenceJson ++ '\n' :: t ++ '\n' :: fence ++ w2
        = w1 ++ (fenceJson ++ ('\n' :: (t ++ '\n' :: fence))) ++ w2 from by simp]
    have hstrip0 : pyStrip (w1 ++ (fenceJson ++ ('\n' :: (t ++ '\n' :: fence))) ++ w2)
        = fenceJson ++ ('\n' :: (t ++ '\n' :: fence)) :=
      pyStrip_wrapped h1 h2 (head_not_space_fenceJson _)
        (fun c hc => getLast_not_space_fence (fenceJson ++ '\n' :: t ++ ['\n']) c (by
          rw [show (fenceJson ++ '\n' :: t ++ ['\n']) ++ fence
              = fenceJson ++ ('\n' :: (t ++ '\n' :: fence)) from by simp]
          exact hc))
    have hpreJ : fenceJson.isPrefixOf (fenceJson ++ ('\n' :: (t ++ '\n' :: fence)))
        = true := by
      simp only [List.isPrefixOf_iff_prefix]
      exact List.prefix_append _ _
    have hdrop : (fenceJson ++ ('\n' :: (t ++ '\n' :: fence))).drop 7
        = '\n' :: (t ++ '\n' :: fence) := by
      rw [show (7 : Nat) = fenceJson.length from by decide]
      exact List.drop_left _ _
    simp only [cleanToolInput]
    rw [hstrip0, if_pos hpreJ, hdrop, hmid, if_neg hnp1, if_pos hsufKey, htake,
      hstripFinal]
  · rw [show w1 ++ fence ++ '\n' :: t ++ '\n' :: fence ++ w2
        = w1 ++ (fence ++ ('\n' :: (t ++ '\n' :: fence))) ++ w2 from by simp]
    have hstrip0 : pyStrip (w1 ++ (fence ++ ('\n' :: (t ++ '\n' :: fence))) ++ w2)
        = fence ++ ('\n' :: (t ++ '\n' :: fence)) :=
      pyStrip_wrapped h1 h2 (head_not_space_fence _)
        (fun c hc => getLast_not_space_fence (fence ++ '\n' :: t ++ ['\n']) c (by
          rw [show (fence ++ '\n' :: t ++ ['\n']) ++ fence
              = fence ++ ('\n' :: (t ++ '\n' :: fence)) from by simp]
          exact hc))
    have hnpJ : ¬ (fenceJson.isPrefixOf (fence ++ ('\n' :: (t ++ '\n' :: fence)))
        = true) := by
      rw [fenceJson_not_prefixOf_plain]
      simp
    have hpreF : fence.isPrefixOf (fence ++ ('\n' :: (t ++ '\n' :: fence))) = true := by
      simp only [List.isPrefixOf_iff_prefix]
      exact List.prefix_append _ _
    have hdrop : (fence ++ ('\n' :: (t ++ '\n' :: fence))).drop 3
        = '\n' :: (t ++ '\n' :: fence) := by
      rw [show (3 : Nat) = fence.length from by decide]
      exact List.drop_left _ _
    simp only [cleanToolInput]
    rw [hstrip0, if_neg hnpJ, if_pos hpreF, hdrop, hmid, if_pos hsufKey, htake,
      hstripFinal]

/-- Claim C8: the lenient tool-input parser strips a leading `"```json"` or
`"```"` marker and a trailing `"```"` marker together with surrounding
whitespace (first conjunct, for any fenced payload with non-space ends that
does not itself open with a fence); the cleaned string is JSON-decoded when it
is brace- or bracket-delimited, is passed through as the cleaned string
instead of raising when decoding fails, and non-JSON-looking input is passed
through cleaned (remaining conjuncts, for an arbitrary decoder `jsonLoads`).
-/
theorem c8_lenient_tool_input_parsing {J : Type} (jsonLoads : PyStr → Option J) :
    (∀ w1 w2 t : PyStr,
      (∀ c ∈ w1, pyIsSpace c = true) → (∀ c ∈ w2, pyIsSpace c = true) →
      t ≠ [] →
      (∀ c, t.head? = some c → pyIsSpace c = false) →
      (∀ c, t.getLast? = some c → pyIsSpace c = false) →
      fence.isPrefixOf t = false →
      cleanToolInput (w1 ++ fenceJson ++ '\n' :: t ++ '\n' :: fence ++ w2) = t ∧
      cleanToolInput (w1 ++ fence ++ '\n' :: t ++ '\n' :: fence ++ w2) = t) ∧
    (∀ raw : PyStr, looksLikeJson (cleanToolInput raw) = false →
      parseToolInput jsonLoads raw = .str (cleanToolInput raw)) ∧
    (∀ raw : PyStr, looksLikeJson (cleanToolInput raw) = true →
      jsonLoads (cleanToolInput raw) = none →
      parseToolInput jsonLoads raw = .str (cleanToolInput raw)) ∧
    (∀ (raw : PyStr) (v : J), looksLikeJson (cleanToolInput raw) = true →
      jsonLoads (cleanToolInput raw) = some v →
      parseToolInput jsonLoads raw = .json v) := by
  refine ⟨fun w1 w2 t h1 h2 hne hh hl hp => cleanToolInput_fenced h1 h2 hne hh hl hp,
    ?_, ?_, ?_⟩
  · intro raw hlj
    simp [parseToolInput, hlj]
  · intro raw hlj hnone
    simp [parseToolInput, hlj, hnone]
  · intro raw v hlj hsome
    simp [parseToolInput, hlj, hsome]

/-- Claim C8 witness: `c8_lenient_tool_input_parsing` at concrete payloads —
a fenced body, a plain pass-through, a failed decode and a successful
decode. -/
theorem c8_lenient_tool_input_parsing_witness :
    cleanToolInput ([' '] ++ fenceJson ++ '\n' :: ['x'] ++ '\n' :: fence ++ []) = ['x'] ∧
    parseToolInput (fun _ => (none : Option Unit)) "hi".toList
      = .str (cleanToolInput "hi".toList) ∧
    parseToolInput (fun _ => (none : Option Unit)) "{bad}".toList
      = .str (cleanToolInput "{bad}".toList) ∧
    parseToolInput (fun _ => (some () : Option Unit)) "{}".toList = .json () :=
  ⟨((c8_lenient_tool_input_parsing (fun _ => (none : Option Unit))).1 [' '] [] ['x']
      (by decide) (by decide) (by decide)
      (by intro c hc; injection hc with h; subst h; decide)
      (by intro c hc; injection hc with h; subst h; decide)
      (by decide)).1,
   (c8_lenient_tool_input_parsing (fun _ => (none : Option Unit))).2.1 "hi".toList
      (by decide),
   (c8_lenient_tool_input_parsing (fun _ => (none : Option Unit))).2.2.1 "{bad}".toList
      (by decide) rfl,
   (c8_lenient_tool_input_parsing (fun _ => (some () : Option Unit))).2.2.2 "{}".toList ()
      (by decide) rfl⟩

/-- The event kinds flowing through `output_stream_fn`: the `EventType`
constants of `utils/custom_event_handler.py` that the streaming code and its
callback handlers actually send. -/
inductive EventKind
  | token
  | toolStart
  | toolEnd
  | chainStart
  | agentAction
  | message
  | start
  | error
  | chainEnd
  | endEvent
deriving DecidableEq

/-- An event pushed to the caller's sink (kind plus a flattened payload). -/
structure Event where
  kind : EventKind
  payload : String
deriving DecidableEq

/-- The terminal kinds of the taxonomy: `CHAIN_END` and `END`. -/
def Event.isTerminal (e : Event) : Bool :=
  e.kind = EventKind.chainEnd ∨ e.kind = EventKind.endEvent

/-- The kinds the callback handlers (`StreamingCallback`,
`CustomAsyncIteratorCallbackHandler`) emit during iteration: tokens, tool and
chain lifecycle starts, agent actions, messages, model starts and errors —
never `CHAIN_END` or `END` (both handlers leave the final event to the
service). -/
inductive CbKind
  | token
  | toolStart
  | toolEnd
  | chainStart
  | agentAction
  | message
  | start
  | error
deriving DecidableEq

/-- Injection of callback-emitted kinds into the full taxonomy. -/
def CbKind.toEventKind : CbKind → EventKind
  | .token => .token
  | .toolStart => .toolStart
  | .toolEnd => .toolEnd
  | .chainStart => .chainStart
  | .agentAction => .agentAction
  | .message => .message
  | .start => .start
  | .error => .error

/-- An event emitted by a callback handler while the executor runs. -/
structure CbEvent where
  kind : CbKind
  payload : String
deriving DecidableEq

/-- The sink event of a callback emission. -/
def CbEvent.toEvent (e : CbEvent) : Event := ⟨e.kind.toEventKind, e.payload⟩

/-- A chunk yielded by `SimpleChainExecutor.astream`, in the shapes lines
51-59 of `services/agent/streaming.py` (and 864-873 of the service)
distinguish: an `AIMessageChunk`, a plain string, a dict with a `content`
key, any object with a `content` attribute, or something else. -/
inductive Chunk
  | aiMessageChunk (content : String)
  | plainStr (s : String)
  | dictWithContent (content : String)
  | objWithContent (content : String)
  | opaqueChunk
deriving DecidableEq

/-- The `chunk_content` extracted from a chunk (`None` for unrecognized
shapes). -/
def chunkContent : Chunk → Option String
  | .aiMessageChunk c => some c
  | .plainStr s => some s
  | .dictWithContent c => some c
  | .objWithContent c => some c
  | .opaqueChunk => none

/-- The `output` field of an `on_chain_end` event, in the shapes lines
124-129 distinguish: a dict with `content`, a dict with `output`, an object
with a `content` attribute, or anything else. -/
inductive ChainOutputs
  | dictWithContent (s : String)
  | dictWithOutput (s : String)
  | objWithContent (s : String)
  | otherOutputs
deriving DecidableEq

/-- The `captured_content` extracted from an `on_chain_end` output. -/
def capturedContent : ChainOutputs → Option String
  | .dictWithContent s => some s
  | .dictWithOutput s => some s
  | .objWithContent s => some s
  | .otherOutputs => none

/-- The data of an `on_chain_end` event: whether its name is
`RunnableWithMessageHistory`, whether `parent_ids` is truthy, and its
outputs. -/
structure ChainEndInfo where
  isRWMH : Bool
  hasParents : Bool
  outputs : ChainOutputs
deriving DecidableEq

/-- One iteration item of `astream_events`: the events the callback handlers
emit while it is processed, and its `on_chain_end` data when it is an
`on_chain_end` event. -/
structure RawEvent where
  cb : List CbEvent
  chainEndInfo : Option ChainEndInfo
deriving DecidableEq

/-- What the executor does for one streaming request: it is absent
(`agent_executor` falsy), it is a `SimpleChainExecutor` yielding chunks and
then possibly raising, or it is a regular agent executor yielding
`astream_events` items and then possibly raising. -/
inductive ExecBehavior
  | missing
  | simpleChain (chunks : List Chunk) (err : Option String)
  | agentEvents (items : List RawEvent) (err : Option String)
deriving DecidableEq

/-- The sink's history: every emission attempt, and the events actually
delivered. -/
structure SinkState where
  attempts : List Event
  emitted : List Event
deriving DecidableEq

/-- One call to `output_stream_fn`: `sf n` says whether the `n`-th emission
attempt raises; a raising attempt delivers nothing.  Returns whether the call
returned normally. -/
def emit (sf : Nat → Bool) (e : Event) (st : SinkState) : Bool × SinkState :=
  if sf st.attempts.length then
    (false, { st with attempts := st.attempts ++ [e] })
  else
    (true, { attempts := st.attempts ++ [e], emitted := st.emitted ++ [e] })

/-- A callback emission: failures are swallowed (the token callback catches
its own exceptions and the Langchain callback manager logs handler errors
instead of re-raising). -/
def emitCb (sf : Nat → Bool) (st : SinkState) (e : CbEvent) : SinkState :=
  (emit sf e.toEvent st).2

/-- All callback emissions produced while iterating the items. -/
def emitCbs (sf : Nat → Bool) (st : SinkState) (items : List RawEvent) : SinkState :=
  items.foldl (fun s it => it.cb.foldl (emitCb sf) s) st

/-- The capture step of the `on_chain_end` scan (lines 117-135 / 904-919):
an `on_chain_end` event whose name is `RunnableWithMessageHistory` or which
has no parents overwrites the captured final content when its outputs yield
one. -/
def capturedOfItem (acc : Option String) (it : RawEvent) : Option String :=
  match it.chainEndInfo with
  | none => acc
  | some i =>
    if i.isRWMH || !i.hasParents then
      match capturedContent i.outputs with
      | some c => some c
      | none => acc
    else acc

/-- The final content captured from the whole event stream. -/
def captureFinal (items : List RawEvent) : Option String :=
  items.foldl capturedOfItem none

/-- Lines 140-146 / 923-928: when the captured content is falsy (`None` or
`""`) and the collector's `get_final_output()` is truthy, the collector's
value is used instead. -/
def resolveFinal (captured collector : Option String) : Option String :=
  match captured with
  | some c =>
    if c = "" then
      match collector with
      | some k => if k ≠ "" then some k else some c
      | none => some c
    else some c
  | none =>
    match collector with
    | some k => if k ≠ "" then some k else none
    | none => none

/-- Outcome of the simple-chain streaming loop: the accumulated content was
returned, the local error handler finished (returning `None` or returning
after sending its events), or an emission inside the error handler itself
raised, propagating to the caller. -/
inductive SimpleOutcome
  | success (acc : String)
  | handled
  | raised
deriving DecidableEq

/-- `handle_simple_chain_stream` (streaming.py lines 19-82): emit `TOKEN` for
every truthy chunk content, accumulating it; any exception (the executor's or
a token emission's) is caught locally and answered with one `ERROR` emission,
after which `None` is returned; if that `ERROR` emission raises, the
exception propagates to `stream_agent_response`. -/
def handleSimpleChainStreamLoop (sf : Nat → Bool) :
    List Chunk → Option String → String → SinkState → SimpleOutcome × SinkState
  | [], err, acc, st =>
    match err with
    | none => (.success acc, st)
    | some e =>
      let r := emit sf ⟨.error, "Error during simple stream: " ++ e⟩ st
      (if r.1 then .handled else .raised, r.2)
  | c :: rest, err, acc, st =>
    match chunkContent c with
    | some s =>
      if s ≠ "" then
        let r := emit sf ⟨.token, s⟩ st
        if r.1 then handleSimpleChainStreamLoop sf rest err (acc ++ s) r.2
        else
          let r2 := emit sf ⟨.error, "Error during simple stream: sink error"⟩ r.2
          (if r2.1 then .handled else .raised, r2.2)
      else handleSimpleChainStreamLoop sf rest err acc st
    | none => handleSimpleChainStreamLoop sf rest err acc st

/-- The `except` block of `stream_agent_response` (lines 226-240): try to
emit `ERROR` then `END`; a failure of either is caught by the inner handler,
leaving the stream unterminated.  Returns
`stream_terminated_successfully`. -/
def exceptBlock (sf : Nat → Bool) (msg : String) (st : SinkState) : Bool × SinkState :=
  let r1 := emit sf ⟨.error, "Critical agent error: " ++ msg⟩ st
  if r1.1 then
    emit sf ⟨.endEvent, "Stream terminated due to critical error"⟩ r1.2
  else (false, r1.2)

/-- The `finally` block of `stream_agent_response` (lines 242-248): when no
terminal event was sent, attempt one fallback `END` (its own failure is
swallowed). -/
def finallyBlock (sf : Nat → Bool) (flag : Bool) (st : SinkState) : SinkState :=
  if flag then st
  else (emit sf ⟨.endEvent, "Stream finalized by fallback handler."⟩ st).2

/-- The body of `stream_agent_response` (streaming.py lines 150-241) up to its
`finally`: returns `stream_terminated_successfully` and the sink state.
`collector` abstracts `MCPEventCollector.get_final_output()`. -/
def streamAgentResponseCore (sf : Nat → Bool) (b : ExecBehavior)
    (collector : Option String) : Bool × SinkState :=
  let st0 : SinkState := ⟨[], []⟩
  match b with
  | .missing =>
    let r1 := emit sf ⟨.error, "Agent not initialized for streaming"⟩ st0
    if r1.1 then
      let r2 := emit sf ⟨.endEvent, "Stream terminated due to initialization error"⟩ r1.2
      if r2.1 then (true, r2.2) else exceptBlock sf "sink error" r2.2
    else exceptBlock sf "sink error" r1.2
  | .simpleChain chunks err =>
    match handleSimpleChainStreamLoop sf chunks err "" st0 with
    | (.success acc, st1) =>
      emit sf ⟨.chainEnd, acc⟩ st1
    | (.handled, st1) =>
      let r := emit sf ⟨.endEvent, "Stream finished without specific final content"⟩ st1
      if r.1 then (true, r.2) else exceptBlock sf "sink error" r.2
    | (.raised, st1) => exceptBlock sf "sink error" st1
  | .agentEvents items err =>
    let st1 := emitCbs sf st0 items
    match err with
    | some e => exceptBlock sf e st1
    | none =>
      match resolveFinal (captureFinal items) collector with
      | some c =>
        emit sf ⟨.chainEnd, c⟩ st1
      | none =>
        let r := emit sf ⟨.endEvent, "Stream finished without specific final content"⟩ st1
        if r.1 then (true, r.2) else exceptBlock sf "sink error" r.2

/-- `stream_agent_response` (streaming.py lines 150-250): the body followed by
the `finally`-guarded fallback `END`. -/
def streamAgentResponse (sf : Nat → Bool) (b : ExecBehavior)
    (collector : Option String) : SinkState :=
  let r := streamAgentResponseCore sf b collector
  finallyBlock sf r.1 r.2

/-- The `except BaseException` block of `astream_ask_agent_events` (lines
956-965): try `ERROR` then `END`; failures of either are swallowed by the
inner handler; the `finally` (lines 966-967) only logs. -/
def astreamExceptBlock (sf : Nat → Bool) (msg : String) (st : SinkState) : SinkState :=
  let r1 := emit sf ⟨.error, "Critical agent error: " ++ msg⟩ st
  if r1.1 then
    (emit sf ⟨.endEvent, "Stream terminated due to critical agent error."⟩ r1.2).2
  else r1.2

/-- The local error answer of the simple-chain branch of
`astream_ask_agent_events` (lines 884-890): emit `ERROR` then `END` and
return; if either emission raises, the exception propagates to the outer
`except BaseException`. -/
def astreamSimpleError (sf : Nat → Bool) (msg : String) (st : SinkState) :
    SimpleOutcome × SinkState :=
  let r1 := emit sf ⟨.error, "Error during simple stream: " ++ msg⟩ st
  if r1.1 then
    let r2 := emit sf ⟨.endEvent, "Stream terminated due to simple stream error."⟩ r1.2
    (if r2.1 then .handled else .raised, r2.2)
  else (.raised, r1.2)

/-- The simple-chain loop of `astream_ask_agent_events` (lines 857-890). -/
def astreamSimpleLoop (sf : Nat → Bool) :
    List Chunk → Option String → String → SinkState → SimpleOutcome × SinkState
  | [], err, acc, st =>
    match err with
    | none => (.success acc, st)
    | some e => astreamSimpleError sf e st
  | c :: rest, err, acc, st =>
    match chunkContent c with
    | some s =>
      if s ≠ "" then
        let r := emit sf ⟨.token, s⟩ st
        if r.1 then astreamSimpleLoop sf rest err (acc ++ s) r.2
        else astreamSimpleError sf "sink error" r.2
      else astreamSimpleLoop sf rest err acc st
    | none => astreamSimpleLoop sf rest err acc st

/-- `LangchainAgentService.astream_ask_agent_events` (lines 809-967): unlike
`stream_agent_response` there is no terminated-flag and no fallback `END` in
the `finally`; a failed final `CHAIN_END` emission is swallowed (lines
935-943) and nothing more is sent. -/
def astreamAskAgentEvents (sf : Nat → Bool) (b : ExecBehavior)
    (collector : Option String) : SinkState :=
  let st0 : SinkState := ⟨[], []⟩
  match b with
  | .missing =>
    let r1 := emit sf ⟨.error, "Agent could not be initialized for streaming."⟩ st0
    if r1.1 then
      let r2 := emit sf
        ⟨.endEvent, "Stream terminated due to agent initialization error."⟩ r1.2
      if r2.1 then r2.2 else astreamExceptBlock sf "sink error" r2.2
    else astreamExceptBlock sf "sink error" r1.2
  | .simpleChain chunks err =>
    match astreamSimpleLoop sf chunks err "" st0 with
    | (.success acc, st1) => (emit sf ⟨.chainEnd, acc⟩ st1).2
    | (.handled, st1) => st1
    | (.raised, st1) => astreamExceptBlock sf "sink error" st1
  | .agentEvents items err =>
    let st1 := emitCbs sf st0 items
    match err with
    | some e => astreamExceptBlock sf e st1
    | none =>
      match resolveFinal (captureFinal items) collector with
      | some c => (emit sf ⟨.chainEnd, c⟩ st1).2
      | none =>
        let r := emit sf
          ⟨.endEvent, "Stream finished without specific final content."⟩ st1
        if r.1 then r.2 else astreamExceptBlock sf "sink error" r.2

/-- A sink that never raises. -/
def reliableSink : Nat → Bool := fun _ => false

/-- Sink state after a block of successful emissions. -/
def pushEvents (st : SinkState) (es : List Event) : SinkState :=
  ⟨st.attempts ++ es, st.emitted ++ es⟩

/-- Helper: a reliable sink accepts every emission. -/
theorem emit_reliable (e : Event) (st : SinkState) :
    emit reliableSink e st = (true, pushEvents st [e]) := by
  simp [emit, reliableSink, pushEvents]

/-- Helper: successive emission blocks concatenate. -/
theorem pushEvents_pushEvents (st : SinkState) (a b : List Event) :
    pushEvents (pushEvents st a) b = pushEvents st (a ++ b) := by
  simp [pushEvents]

/-- Helper: an empty emission block is a no-op. -/
theorem pushEvents_nil (st : SinkState) : pushEvents st [] = st := by
  simp [pushEvents]

/-- The `TOKEN` events a chunk list produces. -/
def tokenEvents (chunks : List Chunk) : List Event :=
  chunks.filterMap fun c =>
    match chunkContent c with
    | some s => if s ≠ "" then some ⟨.token, s⟩ else none
    | none => none

/-- The accumulated content of a chunk list. -/
def accContent (chunks : List Chunk) (acc : String) : String :=
  chunks.foldl (fun a c =>
    match chunkContent c with
    | some s => if s ≠ "" then a ++ s else a
    | none => a) acc

/-- Helper: the simple-chain loop under a reliable sink, successful run. -/
theorem simpleLoop_rel_none :
    ∀ (chunks : List Chunk) (acc : String) (st : SinkState),
    handleSimpleChainStreamLoop reliableSink chunks none acc st =
      (.success (accContent chunks acc), pushEvents st (tokenEvents chunks)) := by
  intro chunks
  induction chunks with
  | nil => intro acc st; simp [handleSimpleChainStreamLoop, accContent, tokenEvents,
      pushEvents_nil]
  | cons c rest ih =>
    intro acc st
    cases hc : chunkContent c with
    | some s =>
      by_cases hs : s = ""
      · subst hs
        simp [handleSimpleChainStreamLoop, hc, ih, accContent, tokenEvents]
      · simp [handleSimpleChainStreamLoop, hc, hs, emit_reliable, ih, accContent,
          tokenEvents, pushEvents_pushEvents]
    | none =>
      simp [handleSimpleChainStreamLoop, hc, ih, accContent, tokenEvents]

/-- Helper: the simple-chain loop under a reliable sink, failing executor. -/
theorem simpleLoop_rel_some :
    ∀ (chunks : List Chunk) (e : String) (acc : String) (st : SinkState),
    handleSimpleChainStreamLoop reliableSink chunks (some e) acc st =
      (.handled, pushEvents st (tokenEvents chunks ++
        [⟨.error, "Error during simple stream: " ++ e⟩])) := by
  intro chunks
  induction chunks with
  | nil => intro e acc st; simp [handleSimpleChainStreamLoop, emit_reliable,
      tokenEvents]
  | cons c rest ih =>
    intro e acc st
    cases hc : chunkContent c with
    | some s =>
      by_cases hs : s = ""
      · subst hs
        simp [handleSimpleChainStreamLoop, hc, ih, tokenEvents]
      · simp [handleSimpleChainStreamLoop, hc, hs, emit_reliable, ih, tokenEvents,
          pushEvents_pushEvents]
    | none =>
      simp [handleSimpleChainStreamLoop, hc, ih, tokenEvents]

/-- Helper: the astream simple-chain loop under a reliable sink, successful
run. -/
theorem astreamSimpleLoop_rel_none :
    ∀ (chunks : List Chunk) (acc : String) (st : SinkState),
    astreamSimpleLoop reliableSink chunks none acc st =
      (.success (accContent chunks acc), pushEvents st (tokenEvents chunks)) := by
  intro chunks
  induction chunks with
  | nil => intro acc st; simp [astreamSimpleLoop, accContent, tokenEvents,
      pushEvents_nil]
  | cons c rest ih =>
    intro acc st
    cases hc : chunkContent c with
    | some s =>
      by_cases hs : s = ""
      · subst hs
        simp [astreamSimpleLoop, hc, ih, accContent, tokenEvents]
      · simp [astreamSimpleLoop, hc, hs, emit_reliable, ih, accContent,
          tokenEvents, pushEvents_pushEvents]
    | none =>
      simp [astreamSimpleLoop, hc, ih, accContent, tokenEvents]

/-- Helper: the astream simple-chain loop under a reliable sink, failing
executor. -/
theorem astreamSimpleLoop_rel_some :
    ∀ (chunks : List Chunk) (e : String) (acc : String) (st : SinkState),
    astreamSimpleLoop reliableSink chunks (some e) acc st =
      (.handled, pushEvents st (tokenEvents chunks ++
        [⟨.error, "Error during simple stream: " ++ e⟩,
         ⟨.endEvent, "Stream terminated due to simple stream error."⟩])) := by
  intro chunks
  induction chunks with
  | nil => intro e acc st; simp [astreamSimpleLoop, astreamSimpleError, emit_reliable,
      tokenEvents, pushEvents_pushEvents]
  | cons c rest ih =>
    intro e acc st
    cases hc : chunkContent c with
    | some s =>
      by_cases hs : s = ""
      · subst hs
        simp [astreamSimpleLoop, hc, ih, tokenEvents]
      · simp [astreamSimpleLoop, hc, hs, emit_reliable, ih, tokenEvents,
          pushEvents_pushEvents]
    | none =>
      simp [astreamSimpleLoop, hc, ih, tokenEvents]

/-- The sink events of the callback emissions of an item list. -/
def cbEventsOf : List RawEvent → List Event
  | [] => []
  | it :: rest => it.cb.map CbEvent.toEvent ++ cbEventsOf rest

/-- Helper: folding callback emissions under a reliable sink. -/
theorem emitCb_fold_rel :
    ∀ (cbs : List CbEvent) (st : SinkState),
    cbs.foldl (emitCb reliableSink) st = pushEvents st (cbs.map CbEvent.toEvent) := by
  intro cbs
  induction cbs with
  | nil => intro st; simp [pushEvents_nil]
  | cons c rest ih =>
    intro st
    simp [List.foldl_cons, emitCb, emit_reliable, ih, pushEvents_pushEvents]

/-- Helper: all callback emissions under a reliable sink. -/
theorem emitCbs_rel :
    ∀ (items : List RawEvent) (st : SinkState),
    emitCbs reliableSink st items = pushEvents st (cbEventsOf items) := by
  intro items
  induction items with
  | nil => intro st; simp [emitCbs, cbEventsOf, pushEvents_nil]
  | cons it rest ih =>
    intro st
    simp only [emitCbs, List.foldl_cons] at *
    rw [emitCb_fold_rel, ih, pushEvents_pushEvents, cbEventsOf]

/-- Helper: callback events are never terminal. -/
theorem cbToEvent_not_terminal (c : CbEvent) : c.toEvent.isTerminal = false := by
  cases c with
  | mk k p => cases k <;> rfl

/-- Helper: token events are never terminal. -/
theorem tokenEvents_not_terminal (chunks : List Chunk) :
    ∀ e ∈ tokenEvents chunks, e.isTerminal = false := by
  intro e he
  rw [tokenEvents, List.mem_filterMap] at he
  obtain ⟨c, _, hc⟩ := he
  cases hcc : chunkContent c with
  | some s =>
    rw [hcc] at hc
    by_cases hs : s = ""
    · subst hs; simp at hc
    · simp [hs] at hc
      subst hc
      rfl
  | none => rw [hcc] at hc; simp at hc

/-- Helper: callback event lists contain no terminal event. -/
theorem cbEventsOf_not_terminal :
    ∀ (items : List RawEvent), ∀ e ∈ cbEventsOf items, e.isTerminal = false := by
  intro items
  induction items with
  | nil => intro e he; simp [cbEventsOf] at he
  | cons it rest ih =>
    intro e he
    rw [cbEventsOf] at he
    rcases List.mem_append.mp he with h | h
    · obtain ⟨c, _, rfl⟩ := List.mem_map.mp h
      exact cbToEvent_not_terminal c
    · exact ih e h

/-- The emitted stream holds exactly one terminal event and it is the last
event. -/
def TerminalOnceAtEnd (es : List Event) : Prop :=
  es.countP (fun e => e.isTerminal) = 1 ∧
  ∃ e, es.getLast? = some e ∧ e.isTerminal = true

/-- Helper: a non-terminal block closed by one terminal event satisfies the
terminal discipline. -/
theorem terminalOnce_snoc {pre : List Event} {e : Event}
    (hpre : ∀ x ∈ pre, x.isTerminal = false) (he : e.isTerminal = true) :
    TerminalOnceAtEnd (pre ++ [e]) := by
  constructor
  · rw [List.countP_append]
    have h0 : pre.countP (fun x => x.isTerminal) = 0 :=
      List.countP_eq_zero.mpr fun a ha => by rw [hpre a ha]; simp
    rw [h0]
    simp [List.countP, List.countP.go, he]
  · exact ⟨e, List.getLast?_concat pre, he⟩

/-- Helper: appending an `ERROR` event keeps a block terminal-free. -/
theorem not_terminal_snoc_error {pre : List Event}
    (h : ∀ x ∈ pre, x.isTerminal = false) (msg : String) :
    ∀ x ∈ pre ++ [⟨.error, msg⟩], x.isTerminal = false := by
  intro x hx
  rcases List.mem_append.mp hx with h1 | h1
  · exact h x h1
  · simp at h1
    subst h1
    rfl

/-- Claim C1: under a sink that accepts every event, both streaming
implementations emit, for every executor behavior (success, mid-stream
exception, or missing executor) and every collector content, exactly one
terminal event (`CHAIN_END` or `END`), and it is the last event of the
stream. -/
theorem c1_exactly_one_terminal (b : ExecBehavior) (collector : Option String) :
    TerminalOnceAtEnd (streamAgentResponse reliableSink b collector).emitted ∧
    TerminalOnceAtEnd (astreamAskAgentEvents reliableSink b collector).emitted := by
  constructor
  · cases b with
    | missing =>
      have he : (streamAgentResponse reliableSink .missing collector).emitted
          = [⟨.error, "Agent not initialized for streaming"⟩] ++
            [⟨.endEvent, "Stream terminated due to initialization error"⟩] := by
        simp [streamAgentResponse, streamAgentResponseCore, emit_reliable,
          finallyBlock, pushEvents_pushEvents, pushEvents]
      rw [he]
      exact terminalOnce_snoc (by intro x hx; simp at hx; subst hx; rfl) rfl
    | simpleChain chunks err =>
      cases err with
      | none =>
        have he : (streamAgentResponse reliableSink (.simpleChain chunks none)
            collector).emitted
            = tokenEvents chunks ++ [⟨.chainEnd, accContent chunks ""⟩] := by
          simp [streamAgentResponse, streamAgentResponseCore, simpleLoop_rel_none,
            emit_reliable, finallyBlock, pushEvents_pushEvents, pushEvents]
        rw [he]
        exact terminalOnce_snoc (tokenEvents_not_terminal chunks) rfl
      | some e =>
        have he : (streamAgentResponse reliableSink (.simpleChain chunks (some e))
            collector).emitted
            = (tokenEvents chunks ++
                [⟨.error, "Error during simple stream: " ++ e⟩]) ++
              [⟨.endEvent, "Stream finished without specific final content"⟩] := by
          simp [streamAgentResponse, streamAgentResponseCore, simpleLoop_rel_some,
            emit_reliable, finallyBlock, pushEvents_pushEvents, pushEvents]
        rw [he]
        exact terminalOnce_snoc
          (not_terminal_snoc_error (tokenEvents_not_terminal chunks) _) rfl
    | agentEvents items err =>
      cases err with
      | some e =>
        have he : (streamAgentResponse reliableSink (.agentEvents items (some e))
            collector).emitted
            = (cbEventsOf items ++ [⟨.error, "Critical agent error: " ++ e⟩]) ++
              [⟨.endEvent, "Stream terminated due to critical error"⟩] := by
          simp [streamAgentResponse, streamAgentResponseCore, emitCbs_rel,
            exceptBlock, emit_reliable, finallyBlock, pushEvents_pushEvents,
            pushEvents]
        rw [he]
        exact terminalOnce_snoc
          (not_terminal_snoc_error (cbEventsOf_not_terminal items) _) rfl
      | none =>
        cases hres : resolveFinal (captureFinal items) collector with
        | some c =>
          have he : (streamAgentResponse reliableSink (.agentEvents items none)
              collector).emitted
              = cbEventsOf items ++ [⟨.chainEnd, c⟩] := by
            simp [streamAgentResponse, streamAgentResponseCore, emitCbs_rel, hres,
              emit_reliable, finallyBlock, pushEvents_pushEvents, pushEvents]
          rw [he]
          exact terminalOnce_snoc (cbEventsOf_not_terminal items) rfl
        | none =>
          have he : (streamAgentResponse reliableSink (.agentEvents items none)
              collector).emitted
              = cbEventsOf items ++
                [⟨.endEvent, "Stream finished without specific final content"⟩] := by
            simp [streamAgentResponse, streamAgentResponseCore, emitCbs_rel, hres,
              emit_reliable, finallyBlock, pushEvents_pushEvents, pushEvents]
          rw [he]
          exact terminalOnce_snoc (cbEventsOf_not_terminal items) rfl
  · cases b with
    | missing =>
      have he : (astreamAskAgentEvents reliableSink .missing collector).emitted
          = [⟨.error, "Agent could not be initialized for streaming."⟩] ++
            [⟨.endEvent, "Stream terminated due to agent initialization error."⟩] := by
        simp [astreamAskAgentEvents, emit_reliable, pushEvents_pushEvents,
          pushEvents]
      rw [he]
      exact terminalOnce_snoc (by intro x hx; simp at hx; subst hx; rfl) rfl
    | simpleChain chunks err =>
      cases err with
      | none =>
        have he : (astreamAskAgentEvents reliableSink (.simpleChain chunks none)
            collector).emitted
            = tokenEvents chunks ++ [⟨.chainEnd, accContent chunks ""⟩] := by
          simp [astreamAskAgentEvents, astreamSimpleLoop_rel_none, emit_reliable,
            pushEvents_pushEvents, pushEvents]
        rw [he]
        exact terminalOnce_snoc (tokenEvents_not_terminal chunks) rfl
      | some e =>
        have he : (astreamAskAgentEvents reliableSink (.simpleChain chunks (some e))
            collector).emitted
            = (tokenEvents chunks ++
                [⟨.error, "Error during simple stream: " ++ e⟩]) ++
              [⟨.endEvent, "Stream terminated due to simple stream error."⟩] := by
          simp [astreamAskAgentEvents, astreamSimpleLoop_rel_some, emit_reliable,
            pushEvents_pushEvents, pushEvents]
        rw [he]
        exact terminalOnce_snoc
          (not_terminal_snoc_error (tokenEvents_not_terminal chunks) _) rfl
    | agentEvents items err =>
      cases err with
      | some e =>
        have he : (astreamAskAgentEvents reliableSink (.agentEvents items (some e))
            collector).emitted
            = (cbEventsOf items ++ [⟨.error, "Critical agent error: " ++ e⟩]) ++
              [⟨.endEvent, "Stream terminated due to critical agent error."⟩] := by
          simp [astreamAskAgentEvents, emitCbs_rel, astreamExceptBlock,
            emit_reliable, pushEvents_pushEvents, pushEvents]
        rw [he]
        exact terminalOnce_snoc
          (not_terminal_snoc_error (cbEventsOf_not_terminal items) _) rfl
      | none =>
        cases hres : resolveFinal (captureFinal items) collector with
        | some c =>
          have he : (astreamAskAgentEvents reliableSink (.agentEvents items none)
              collector).emitted
              = cbEventsOf items ++ [⟨.chainEnd, c⟩] := by
            simp [astreamAskAgentEvents, emitCbs_rel, hres, emit_reliable,
              pushEvents_pushEvents, pushEvents]
          rw [he]
          exact terminalOnce_snoc (cbEventsOf_not_terminal items) rfl
        | none =>
          have he : (astreamAskAgentEvents reliableSink (.agentEvents items none)
              collector).emitted
              = cbEventsOf items ++
                [⟨.endEvent, "Stream finished without specific final content."⟩] := by
            simp [astreamAskAgentEvents, emitCbs_rel, hres, emit_reliable,
              pushEvents_pushEvents, pushEvents]
          rw [he]
          exact terminalOnce_snoc (cbEventsOf_not_terminal items) rfl

/-- Helper: every attempt is recorded. -/
theorem emit_attempts (sf : Nat → Bool) (e : Event) (st : SinkState) :
    (emit sf e st).2.attempts = st.attempts ++ [e] := by
  unfold emit
  split <;> rfl

/-- Helper: a successful emission appends the event. -/
theorem emit_emitted_of_true {sf : Nat → Bool} {e : Event} {st : SinkState}
    (h : (emit sf e st).1 = true) : (emit sf e st).2.emitted = st.emitted ++ [e] := by
  by_cases hc : sf st.attempts.length = true
  · exfalso
    unfold emit at h
    rw [if_pos hc] at h
    simp at h
  · unfold emit
    rw [if_neg hc]

/-- Helper: a successful `except` block of `stream_agent_response` ends with a
delivered `END`. -/
theorem exceptBlock_flag {sf : Nat → Bool} {msg : String} {st : SinkState}
    (h : (exceptBlock sf msg st).1 = true) :
    ∃ x ∈ (exceptBlock sf msg st).2.emitted, x.isTerminal = true := by
  unfold exceptBlock at *
  by_cases h1 : (emit sf ⟨.error, "Critical agent error: " ++ msg⟩ st).1 = true
  · rw [if_pos h1] at h ⊢
    refine ⟨⟨.endEvent, "Stream terminated due to critical error"⟩, ?_, rfl⟩
    rw [emit_emitted_of_true h]
    simp
  · rw [if_neg h1] at h
    simp at h

/-- Helper: a successful emission of a terminal event delivers it. -/
theorem emitFlag_terminal {sf : Nat → Bool} {k : EventKind} {p : String}
    {st : SinkState} (hk : (Event.mk k p).isTerminal = true)
    (h : (emit sf ⟨k, p⟩ st).1 = true) :
    ∃ x ∈ (emit sf ⟨k, p⟩ st).2.emitted, x.isTerminal = true := by
  refine ⟨⟨k, p⟩, ?_, hk⟩
  rw [emit_emitted_of_true h]
  simp

/-- Helper: the try-`END`-or-`except` pattern of `stream_agent_response`
delivers a terminal event whenever it reports success. -/
theorem endOrExcept_flag {sf : Nat → Bool} {msg : String} {st : SinkState}
    (h : ((if (emit sf ⟨.endEvent, msg⟩ st).1 = true
      then ((true, (emit sf ⟨.endEvent, msg⟩ st).2) : Bool × SinkState)
      else exceptBlock sf "sink error" (emit sf ⟨.endEvent, msg⟩ st).2)).1 = true) :
    ∃ x ∈ ((if (emit sf ⟨.endEvent, msg⟩ st).1 = true
      then ((true, (emit sf ⟨.endEvent, msg⟩ st).2) : Bool × SinkState)
      else exceptBlock sf "sink error" (emit sf ⟨.endEvent, msg⟩ st).2)).2.emitted,
      x.isTerminal = true := by
  by_cases h2 : (emit sf ⟨.endEvent, msg⟩ st).1 = true
  · rw [if_pos h2] at h ⊢
    exact emitFlag_terminal rfl h2
  · rw [if_neg h2] at h ⊢
    exact exceptBlock_flag h

/-- Helper: whenever `stream_agent_response` marks the stream as successfully
terminated, a terminal event was in fact delivered. -/
theorem core_flag_terminal (sf : Nat → Bool) (b : ExecBehavior)
    (collector : Option String)
    (h : (streamAgentResponseCore sf b collector).1 = true) :
    ∃ x ∈ (streamAgentResponseCore sf b collector).2.emitted, x.isTerminal = true := by
  cases b with
  | missing =>
    simp only [streamAgentResponseCore] at h ⊢
    by_cases h1 : (emit sf ⟨.error, "Agent not initialized for streaming"⟩
        ⟨[], []⟩).1 = true
    · rw [if_pos h1] at h ⊢
      by_cases h2 : (emit sf
          ⟨.endEvent, "Stream terminated due to initialization error"⟩
          (emit sf ⟨.error, "Agent not initialized for streaming"⟩ ⟨[], []⟩).2).1
          = true
      · rw [if_pos h2] at h ⊢
        refine ⟨⟨.endEvent, "Stream terminated due to initialization error"⟩, ?_, rfl⟩
        rw [emit_emitted_of_true h2]
        simp
      · rw [if_neg h2] at h ⊢
        exact exceptBlock_flag h
    · rw [if_neg h1] at h ⊢
      exact exceptBlock_flag h
  | simpleChain chunks err =>
    simp only [streamAgentResponseCore] at h ⊢
    rcases hres : handleSimpleChainStreamLoop sf chunks err "" ⟨[], []⟩ with ⟨out, st1⟩
    rw [hres] at h
    cases out with
    | success acc => exact emitFlag_terminal rfl h
    | handled => exact endOrExcept_flag h
    | raised => exact exceptBlock_flag h
  | agentEvents items err =>
    simp only [streamAgentResponseCore] at h ⊢
    cases err with
    | some e =>
      exact exceptBlock_flag h
    | none =>
      cases hres : resolveFinal (captureFinal items) collector with
      | some c =>
        rw [hres] at h
        exact emitFlag_terminal rfl h
      | none =>
        rw [hres] at h
        exact endOrExcept_flag h

/-- Claim C2 counterexample: in `astream_ask_agent_events`, with the executor
raising mid-stream and a sink whose very first accepted emission fails (the
`ERROR` attempt of the `except` block, whose own failure is merely logged),
the caller receives no event at all — no `END` follows the failed `ERROR`,
nothing is re-tried, and no `finally`-guarded fallback `END` is even
attempted. -/
theorem c2_astream_no_fallback_counterexample :
    (astreamAskAgentEvents (fun n => n == 0) (.agentEvents [] (some "boom"))
      none).emitted = [] ∧
    (astreamAskAgentEvents (fun n => n == 0) (.agentEvents [] (some "boom"))
      none).attempts.countP (fun e => e.isTerminal) = 0 := by
  constructor <;> rfl

/-- Claim C2 (amended): under a reliable sink an executor exception
mid-stream is answered with `ERROR` followed immediately by `END` in both
implementations (first four conjuncts); and in `stream_agent_response` — but
only there — a `finally`-guarded fallback closes every stream: for every sink
behavior, either a terminal event is delivered or the very last emission
attempt is the fallback `END` (last conjunct).  `astream_ask_agent_events`
has no such fallback: its `finally` only logs, so when emitting the terminal
events themselves fails nothing further is attempted (see the
counterexample). -/
theorem c2_error_then_end :
    (∀ (chunks : List Chunk) (e : String) (col : Option String),
      (streamAgentResponse reliableSink (.simpleChain chunks (some e)) col).emitted
        = tokenEvents chunks ++
          [⟨.error, "Error during simple stream: " ++ e⟩,
           ⟨.endEvent, "Stream finished without specific final content"⟩]) ∧
    (∀ (items : List RawEvent) (e : String) (col : Option String),
      (streamAgentResponse reliableSink (.agentEvents items (some e)) col).emitted
        = cbEventsOf items ++
          [⟨.error, "Critical agent error: " ++ e⟩,
           ⟨.endEvent, "Stream terminated due to critical error"⟩]) ∧
    (∀ (chunks : List Chunk) (e : String) (col : Option String),
      (astreamAskAgentEvents reliableSink (.simpleChain chunks (some e)) col).emitted
        = tokenEvents chunks ++
          [⟨.error, "Error during simple stream: " ++ e⟩,
           ⟨.endEvent, "Stream terminated due to simple stream error."⟩]) ∧
    (∀ (items : List RawEvent) (e : String) (col : Option String),
      (astreamAskAgentEvents reliableSink (.agentEvents items (some e)) col).emitted
        = cbEventsOf items ++
          [⟨.error, "Critical agent error: " ++ e⟩,
           ⟨.endEvent, "Stream terminated due to critical agent error."⟩]) ∧
    (∀ (sf : Nat → Bool) (b : ExecBehavior) (col : Option String),
      (∃ x ∈ (streamAgentResponse sf b col).emitted, x.isTerminal = true) ∨
      (streamAgentResponse sf b col).attempts.getLast?
        = some ⟨.endEvent, "Stream finalized by fallback handler."⟩) := by
  refine ⟨?_, ?_, ?_, ?_, ?_⟩
  · intro chunks e col
    simp [streamAgentResponse, streamAgentResponseCore, simpleLoop_rel_some,
      emit_reliable, finallyBlock, pushEvents_pushEvents, pushEvents]
  · intro items e col
    simp [streamAgentResponse, streamAgentResponseCore, emitCbs_rel, exceptBlock,
      emit_reliable, finallyBlock, pushEvents_pushEvents, pushEvents]
  · intro chunks e col
    simp [astreamAskAgentEvents, astreamSimpleLoop_rel_some, emit_reliable,
      pushEvents_pushEvents, pushEvents]
  · intro items e col
    simp [astreamAskAgentEvents, emitCbs_rel, astreamExceptBlock, emit_reliable,
      pushEvents_pushEvents, pushEvents]
  · intro sf b col
    by_cases hf : (streamAgentResponseCore sf b col).1 = true
    · left
      obtain ⟨x, hx, ht⟩ := core_flag_terminal sf b col hf
      refine ⟨x, ?_, ht⟩
      simp only [streamAgentResponse]
      rw [hf]
      simpa [finallyBlock] using hx
    · right
      have hf2 : (streamAgentResponseCore sf b col).1 = false :=
        Bool.eq_false_iff.mpr hf
      simp only [streamAgentResponse]
      rw [hf2]
      simp only [finallyBlock, Bool.false_eq_true, if_false]
      rw [emit_attempts, List.getLast?_concat]
